import Mathlib

/-!
# Verification of the forking-daemon supervisor (src/forking-daemon.c)

A shallow embedding of the one-file C program.  OS primitives (`fork`,
`waitpid`, `sigaction`, `kill`, `wait`) are modelled by oracles giving the
return value of each call; observable side effects (printf / perror /
kill / exit) are recorded in an event trace.  The global state the program
mutates is passed explicitly: the `children` pid table as a total map
`Nat → Int` (the C array `pid_t children[0xff]`, capacity 255) and the
per-signal disposition map `Nat → Disposition` (what `sigaction` installs).
-/

namespace ForkingDaemon

/-- Signal numbers (Linux values; only their distinctness matters). -/
def SIGINT : Nat := 2

def SIGTERM : Nat := 15

def SIGCHLD : Nat := 17

/-- The two handler functions the program registers (`register_signals`). -/
inductive HandlerId where
  | restartChildrenH
  | terminateChildrenH
deriving DecidableEq

/-- A signal's OS-level disposition: default behaviour, or one of the
program's handlers (`SIG_DFL` vs the `sa_handler` field). -/
inductive Disposition where
  | dfl
  | handler (h : HandlerId)
deriving DecidableEq

/-- `sigpair_t`: a signal together with the handler registered for it. -/
structure sigpair_t where
  signal : Nat
  handler : HandlerId
deriving DecidableEq

/-- `options_t`: jobs count (`int`, set by `atoi`), daemonize flag,
logfile path (char[0xff]). -/
structure options_t where
  jobs : Int
  daemonize : Bool
  logfile : String
deriving DecidableEq

/-- Capacity of the fixed global tables `children[0xff]`, `sigpairs[0xff]`,
`status[0xff]`. -/
def childrenCapacity : Nat := 255

/-- Observable events: each printf/perror, each kill, each waitpid poll,
each recorded spawn, and the process exit. -/
inductive Event where
  | polled (id : Nat)              -- the waitpid(children[id], ..., WNOHANG) call
  | pollError (id : Nat)           -- perror("waitpid()") for slot id
  | reaped (id : Nat) (pid : Int)  -- printf "Master: reaped dead child ..."
  | spawned (id : Nat) (pid : Int) -- printf "Spawning child ..." + children[id] = pid
  | killed (pid : Int)             -- kill(pid, SIGTERM)
  | waitReaped (pid : Int)         -- wait() returned pid; printf "."
  | logged (msg : String)          -- fprintf(stderr, ...) / printf notices
  | exited (code : Nat)            -- exit(code)
deriving DecidableEq

/-- `register_signals()`: SIGCHLD -> restart_children (with SA_NOCLDSTOP),
SIGINT -> terminate_children, SIGTERM -> terminate_children; sigcount = 3. -/
def register_signals : List sigpair_t :=
  [⟨SIGCHLD, HandlerId.restartChildrenH⟩,
   ⟨SIGINT, HandlerId.terminateChildrenH⟩,
   ⟨SIGTERM, HandlerId.terminateChildrenH⟩]

def sigcount : Nat := register_signals.length

/-- Loop body of `trap_signals`: walk the registered pairs; `sigOk k`
tells whether the k-th `sigaction` call succeeds.  On success the signal's
disposition becomes the pair's handler (on = true) or SIG_DFL (on = false)
and the loop continues; on the first failure the function returns false at
once, keeping the dispositions already switched (the C code `return false`s
from inside the loop). -/
def trap_signals_go (sigOk : Nat → Bool) (onFlag : Bool) :
    List sigpair_t → Nat → (Nat → Disposition) → Bool × (Nat → Disposition)
  | [], _, d => (true, d)
  | p :: rest, k, d =>
    if sigOk k then
      trap_signals_go sigOk onFlag rest (k + 1)
        (Function.update d p.signal
          (if onFlag then Disposition.handler p.handler else Disposition.dfl))
    else
      (false, d)

/-- `trap_signals(bool on)` over the registered signal pairs. -/
def trap_signals (sigOk : Nat → Bool) (onFlag : Bool) (d : Nat → Disposition) :
    Bool × (Nat → Disposition) :=
  trap_signals_go sigOk onFlag register_signals 0 d

/-- `child(int id)`, parent side.  `forkRet` is the value `fork()`
returned: negative means failure, and the function returns false without
touching the table or printing; positive (the new child's pid) means the
parent prints "Spawning child", records `children[id] = pid` and returns
true.  A zero return happens only inside the new child process, whose
continuation (reset signals, run the payload, exit) never returns to the
supervisor: that branch is unreachable in the parent and is given a
neutral value here. -/
def child (forkRet : Int) (id : Nat) (ch : Nat → Int) :
    Bool × (Nat → Int) × List Event :=
  if forkRet < 0 then
    (false, ch, [])
  else if 0 < forkRet then
    (true, Function.update ch id forkRet, [Event.spawned id forkRet])
  else
    (true, ch, [])

/-- Loop body of `restart_children` over the slot indices still to visit.
`wp i` is what `waitpid(children[i], &status[i], WNOHANG)` returned for
slot i in this pass: negative = error (perror and continue), zero = child
alive and well (skip), positive = the reaped child's pid (print the reap
notice and relaunch via `child(i)`, whose result is discarded).
`forkRes i` is the `fork()` result of the relaunch attempt at slot i.
An `Event.polled i` marks each waitpid call. -/
def restart_go (wp forkRes : Nat → Int) :
    List Nat → (Nat → Int) → (Nat → Int) × List Event
  | [], ch => (ch, [])
  | i :: rest, ch =>
    if wp i < 0 then
      let r := restart_go wp forkRes rest ch
      (r.1, Event.polled i :: Event.pollError i :: r.2)
    else if wp i = 0 then
      let r := restart_go wp forkRes rest ch
      (r.1, Event.polled i :: r.2)
    else
      let c := child (forkRes i) i ch
      let r := restart_go wp forkRes rest c.2.1
      (r.1, Event.polled i :: Event.reaped i (wp i) :: (c.2.2 ++ r.2))

/-- `restart_children()`: one pass over slots `0 .. jobs-1`. -/
def restart_children (wp forkRes : Nat → Int) (jobs : Nat) (ch : Nat → Int) :
    (Nat → Int) × List Event :=
  restart_go wp forkRes (List.range jobs) ch

/-- The `while ((pid = wait(&status)) != -1)` loop of `terminate_children`:
`pending` is the OS's list of not-yet-reaped children, each `wait` call
collects one (printing "."), and the loop ends when `wait` reports that no
children are left (returns -1, i.e. the list is empty). -/
def wait_all : List Int → List Event
  | [] => []
  | p :: rest => Event.waitReaped p :: wait_all rest

/-- Result of `terminate_children`: final dispositions, the event trace,
and the exit code passed to `exit`. -/
structure TermOut where
  disp : Nat → Disposition
  trace : List Event
  exitCode : Nat

/-- `terminate_children()`: print the notice, call `trap_signals(false)`
(its return value is discarded by the C code), send SIGTERM to
`children[i]` for every slot `i < jobs`, reap until `wait` returns -1,
then `exit(0)`. -/
def terminate_children (sigOk : Nat → Bool) (d : Nat → Disposition)
    (jobs : Nat) (ch : Nat → Int) (pending : List Int) : TermOut :=
  let ts := trap_signals sigOk false d
  { disp := ts.2
    trace :=
      Event.logged "Termination signal received! Killing children" ::
        ((List.range jobs).map (fun i => Event.killed (ch i)) ++
          (wait_all pending ++ [Event.exited 0]))
    exitCode := 0 }

/-- The spawn loop of `master()` over the slot indices: run `child(i)` for
each; on the first failure print "child() failed!" and stop with false
(master then returns 1).  Returns (all-succeeded?, final table, trace). -/
def master_go (forkRes : Nat → Int) :
    List Nat → (Nat → Int) → Bool × (Nat → Int) × List Event
  | [], ch => (true, ch, [])
  | i :: rest, ch =>
    let c := child (forkRes i) i ch
    if c.1 then
      let r := master_go forkRes rest c.2.1
      (r.1, r.2.1, c.2.2 ++ r.2.2)
    else
      (false, c.2.1, c.2.2 ++ [Event.logged "child() failed!"])

/-- Result of `master()`: `exitCode = some c` means master returned `c`
(which main passes to the caller as the process exit status);
`exitCode = none` means all spawns and the signal installation succeeded
and master entered the idle `while (1) sleep(1)` loop (the Running state). -/
structure MasterOut where
  exitCode : Option Nat
  children : Nat → Int
  disp : Nat → Disposition
  trace : List Event

/-- `master()`: spawn slots `0..jobs-1` sequentially; on any spawn failure
return 1 (signal installation is never reached).  Then
`register_signals()` and `trap_signals(true)`; if installation fails,
return 1.  Otherwise idle forever. -/
def master (forkRes : Nat → Int) (sigOk : Nat → Bool) (jobs : Nat)
    (ch0 : Nat → Int) (d : Nat → Disposition) : MasterOut :=
  let s := master_go forkRes (List.range jobs) ch0
  if s.1 then
    let ts := trap_signals sigOk true d
    if ts.1 then
      { exitCode := none, children := s.2.1, disp := ts.2, trace := s.2.2 }
    else
      { exitCode := some 1, children := s.2.1, disp := ts.2
        trace := s.2.2 ++ [Event.logged "trap_signals() failed!"] }
  else
    { exitCode := some 1, children := s.2.1, disp := d
      trace := s.2.2 ++ [] }

/-- A command-line option as `getopt` hands it to the switch: `-d`, `-f
optarg`, `-j optarg` (with `atoi(optarg)` already applied, as the C code
does immediately), `-h`, or an unrecognised flag. -/
inductive Arg where
  | d
  | f (s : String)
  | j (n : Int)
  | h
  | unknown
deriving DecidableEq

/-- The defaults `optparse` sets before the getopt loop. -/
def defaultOptions : options_t :=
  { jobs := 2, daemonize := false, logfile := "/dev/null" }

/-- The getopt switch of `optparse`, folded over the options in order:
`-d` sets daemonize, `-f` copies the argument into logfile (strncpy with
sizeof(logfile) = 255), `-j` stores `atoi(optarg)` with no argument
checking, `-h` prints usage and exits 0, an unknown flag prints usage and
exits 1. -/
def optparse_go : List Arg → options_t → Except Nat options_t
  | [], o => Except.ok o
  | Arg.d :: rest, o => optparse_go rest { o with daemonize := true }
  | Arg.f s :: rest, o => optparse_go rest { o with logfile := s.take 255 }
  | Arg.j n :: rest, o => optparse_go rest { o with jobs := n }
  | Arg.h :: _, _ => Except.error 0
  | Arg.unknown :: _, _ => Except.error 1

/-- `optparse(argc, argv)`: defaults, then the getopt loop. -/
def optparse (args : List Arg) : Except Nat options_t :=
  optparse_go args defaultOptions

/-- Is this event a spawn record for slot i? -/
def isSpawnedAt (i : Nat) : Event → Bool
  | Event.spawned j _ => j == i
  | _ => false

/-- Is this event a waitpid poll of slot i? -/
def isPolledAt (i : Nat) : Event → Bool
  | Event.polled j => j == i
  | _ => false

/-- How many times slot i was polled in a trace. -/
def countPolled (t : List Event) (i : Nat) : Nat := t.countP (isPolledAt i)

/-- How many spawns were recorded for slot i in a trace. -/
def countSpawned (t : List Event) (i : Nat) : Nat := t.countP (isSpawnedAt i)

/-- The pid table after a `restart_children` pass: slot i holds the fork
result of its relaunch when i was visited, its poll reported an exited
child, and the fork did not fail; otherwise it keeps its old pid. -/
theorem restart_go_fst (wp f : Nat → Int) (l : List Nat) (ch : Nat → Int)
    (i : Nat) :
    (restart_go wp f l ch).1 i =
      if i ∈ l ∧ 0 < wp i ∧ 0 < f i then f i else ch i := by
  induction l generalizing ch with
  | nil => simp [restart_go]
  | cons j rest ih =>
    by_cases hw0 : wp j < 0
    · rw [restart_go, if_pos hw0]
      rw [ih ch]
      by_cases hij : i = j
      · subst hij
        have hnp : ¬ 0 < wp i := by omega
        simp [hnp]
      · simp [List.mem_cons, hij]
    · by_cases hw1 : wp j = 0
      · rw [restart_go, if_neg hw0, if_pos hw1]
        rw [ih ch]
        by_cases hij : i = j
        · subst hij
          have hnp : ¬ 0 < wp i := by omega
          simp [hnp]
        · simp [List.mem_cons, hij]
      · have hwp : 0 < wp j := by omega
        by_cases hf : f j < 0
        · rw [restart_go, if_neg hw0, if_neg hw1]
          simp only [child, if_pos hf]
          rw [ih ch]
          by_cases hij : i = j
          · subst hij
            have hnf : ¬ 0 < f i := by omega
            simp [hnf]
          · simp [List.mem_cons, hij]
        · by_cases hfp : 0 < f j
          · rw [restart_go, if_neg hw0, if_neg hw1]
            simp only [child, if_neg hf, if_pos hfp]
            rw [ih (Function.update ch j (f j))]
            by_cases hij : i = j
            · subst hij
              by_cases hmem : i ∈ rest ∧ 0 < wp i ∧ 0 < f i
              · simp [hmem, List.mem_cons, hwp, hfp]
              · simp [hmem, List.mem_cons, hwp, hfp, Function.update_same]
            · simp only [Function.update_apply, if_neg hij]
              simp [List.mem_cons, hij]
          · rw [restart_go, if_neg hw0, if_neg hw1]
            simp only [child, if_neg hf, if_neg hfp]
            rw [ih ch]
            by_cases hij : i = j
            · subst hij
              simp [hfp]
            · simp [List.mem_cons, hij]

/-- Each slot index in the visit list is polled once per occurrence. -/
theorem restart_go_countPolled (wp f : Nat → Int) (l : List Nat)
    (ch : Nat → Int) (i : Nat) :
    countPolled (restart_go wp f l ch).2 i = l.count i := by
  induction l generalizing ch with
  | nil => simp [restart_go, countPolled]
  | cons j rest ih =>
    by_cases hw0 : wp j < 0
    · rw [restart_go, if_pos hw0]
      simp only [countPolled, List.countP_cons] at ih ⊢
      simp [isPolledAt, ih ch, List.count_cons]
    · by_cases hw1 : wp j = 0
      · rw [restart_go, if_neg hw0, if_pos hw1]
        simp only [countPolled, List.countP_cons] at ih ⊢
        simp [isPolledAt, ih ch, List.count_cons]
      · rw [restart_go, if_neg hw0, if_neg hw1]
        by_cases hf : f j < 0
        · simp only [child, if_pos hf]
          simp only [countPolled, List.countP_cons, List.countP_append] at ih ⊢
          simp [isPolledAt, ih ch, List.count_cons]
        · by_cases hfp : 0 < f j
          · simp only [child, if_neg hf, if_pos hfp]
            simp only [countPolled, List.countP_cons, List.countP_append] at ih ⊢
            simp [isPolledAt, ih (Function.update ch j (f j)), List.count_cons]
          · simp only [child, if_neg hf, if_neg hfp]
            simp only [countPolled, List.countP_cons, List.countP_append] at ih ⊢
            simp [isPolledAt, ih ch, List.count_cons]

/-- Spawns recorded for slot i in a pass: one per visit of i when i's poll
reported an exited child and the relaunch fork succeeded, none otherwise. -/
theorem restart_go_countSpawned (wp f : Nat → Int) (l : List Nat)
    (ch : Nat → Int) (i : Nat) :
    countSpawned (restart_go wp f l ch).2 i =
      if 0 < wp i ∧ 0 < f i then l.count i else 0 := by
  induction l generalizing ch with
  | nil => simp [restart_go, countSpawned]
  | cons j rest ih =>
    by_cases hw0 : wp j < 0
    · rw [restart_go, if_pos hw0]
      simp only [countSpawned, List.countP_cons] at ih ⊢
      rw [ih ch]
      by_cases hij : i = j
      · subst hij
        have hnp : ¬ 0 < wp i := by omega
        simp [isSpawnedAt, hnp]
      · simp [isSpawnedAt, List.count_cons, Ne.symm hij]
    · by_cases hw1 : wp j = 0
      · rw [restart_go, if_neg hw0, if_pos hw1]
        simp only [countSpawned, List.countP_cons] at ih ⊢
        rw [ih ch]
        by_cases hij : i = j
        · subst hij
          have hnp : ¬ 0 < wp i := by omega
          simp [isSpawnedAt, hnp]
        · simp [isSpawnedAt, List.count_cons, Ne.symm hij]
      · rw [restart_go, if_neg hw0, if_neg hw1]
        by_cases hf : f j < 0
        · simp only [child, if_pos hf]
          simp only [countSpawned, List.countP_cons, List.countP_append] at ih ⊢
          rw [ih ch]
          by_cases hij : i = j
          · subst hij
            have hnf : ¬ 0 < f i := by omega
            simp [isSpawnedAt, hnf]
          · simp [isSpawnedAt, List.count_cons, Ne.symm hij]
        · by_cases hfp : 0 < f j
          · simp only [child, if_neg hf, if_pos hfp]
            simp only [countSpawned, List.countP_cons, List.countP_append] at ih ⊢
            rw [ih (Function.update ch j (f j))]
            by_cases hij : i = j
            · subst hij
              have hwp : 0 < wp i := by omega
              simp [isSpawnedAt, hwp, hfp, List.count_cons]
              omega
            · simp [isSpawnedAt, List.count_cons, Ne.symm hij, hij]
          · simp only [child, if_neg hf, if_neg hfp]
            simp only [countSpawned, List.countP_cons, List.countP_append] at ih ⊢
            rw [ih ch]
            by_cases hij : i = j
            · subst hij
              simp [isSpawnedAt, hfp]
            · simp [isSpawnedAt, List.count_cons, Ne.symm hij]

/-- The reap loop of shutdown emits exactly one wait event per pending
child, in order. -/
theorem wait_all_eq_map (pending : List Int) :
    wait_all pending = pending.map Event.waitReaped := by
  induction pending with
  | nil => rfl
  | cons p rest ih => simp [wait_all, ih]

/-- The spawn loop of `master` succeeds exactly when every fork in the
visit list succeeds (the C loop returns 1 on the first failed `child`). -/
theorem master_go_fst (f : Nat → Int) (l : List Nat) (ch : Nat → Int) :
    (master_go f l ch).1 = true ↔ ∀ i ∈ l, 0 ≤ f i := by
  induction l generalizing ch with
  | nil => simp [master_go]
  | cons j rest ih =>
    by_cases hf : f j < 0
    · rw [master_go]
      simp only [child, if_pos hf]
      simp
      intro h
      omega
    · by_cases hfp : 0 < f j
      · rw [master_go]
        simp only [child, if_neg hf, if_pos hfp]
        simp only [if_pos]
        rw [ih]
        simp only [List.mem_cons]
        constructor
        · intro h i hi
          rcases hi with hi | hi
          · subst hi; omega
          · exact h i hi
        · intro h i hi
          exact h i (Or.inr hi)
      · rw [master_go]
        simp only [child, if_neg hf, if_neg hfp]
        simp only [if_pos]
        rw [ih]
        simp only [List.mem_cons]
        constructor
        · intro h i hi
          rcases hi with hi | hi
          · subst hi; omega
          · exact h i hi
        · intro h i hi
          exact h i (Or.inr hi)

/-- When every fork succeeds, the spawn loop's trace is exactly the
sequential list of spawn records for the visited slots, in order. -/
theorem master_go_trace (f : Nat → Int) (l : List Nat) (ch : Nat → Int)
    (h : ∀ i ∈ l, 0 < f i) :
    (master_go f l ch).2.2 = l.map (fun i => Event.spawned i (f i)) := by
  induction l generalizing ch with
  | nil => rfl
  | cons j rest ih =>
    have hj : 0 < f j := h j (List.mem_cons_self j rest)
    have hf : ¬ f j < 0 := by omega
    rw [master_go]
    simp only [child, if_neg hf, if_pos hj]
    simp only [if_pos]
    rw [ih (Function.update ch j (f j)) (fun i hi => h i (List.mem_cons_of_mem j hi))]
    simp

/-- `trap_signals` reports success exactly when all three `sigaction`
calls (for SIGCHLD, SIGINT, SIGTERM) succeed. -/
theorem trap_signals_fst_iff (sigOk : Nat → Bool) (onFlag : Bool)
    (d : Nat → Disposition) :
    (trap_signals sigOk onFlag d).1 = true ↔
      sigOk 0 = true ∧ sigOk 1 = true ∧ sigOk 2 = true := by
  cases h0 : sigOk 0 <;> cases h1 : sigOk 1 <;> cases h2 : sigOk 2 <;>
    simp [trap_signals, trap_signals_go, register_signals, h0, h1, h2]

/-- On success, every registered signal's disposition has been switched:
to its handler when installing, to SIG_DFL when restoring. -/
theorem trap_signals_disp_of_ok (sigOk : Nat → Bool) (onFlag : Bool)
    (d : Nat → Disposition) (h : (trap_signals sigOk onFlag d).1 = true) :
    (trap_signals sigOk onFlag d).2 SIGCHLD =
      (if onFlag then Disposition.handler HandlerId.restartChildrenH
        else Disposition.dfl) ∧
    (trap_signals sigOk onFlag d).2 SIGINT =
      (if onFlag then Disposition.handler HandlerId.terminateChildrenH
        else Disposition.dfl) ∧
    (trap_signals sigOk onFlag d).2 SIGTERM =
      (if onFlag then Disposition.handler HandlerId.terminateChildrenH
        else Disposition.dfl) := by
  cases h0 : sigOk 0 <;> cases h1 : sigOk 1 <;> cases h2 : sigOk 2 <;>
    simp [trap_signals, trap_signals_go, register_signals, h0, h1, h2,
      SIGCHLD, SIGINT, SIGTERM, Function.update_apply] at h ⊢

/-- When the first `sigaction` call succeeds and the second fails, the
function reports failure but SIGCHLD's disposition has already been
switched while SIGINT's and SIGTERM's have not: the early `return false`
leaves a partial installation in place. -/
theorem trap_signals_partial (sigOk : Nat → Bool) (onFlag : Bool)
    (d : Nat → Disposition) (h0 : sigOk 0 = true) (h1 : sigOk 1 = false) :
    (trap_signals sigOk onFlag d).1 = false ∧
    (trap_signals sigOk onFlag d).2 SIGCHLD =
      (if onFlag then Disposition.handler HandlerId.restartChildrenH
        else Disposition.dfl) ∧
    (trap_signals sigOk onFlag d).2 SIGINT = d SIGINT ∧
    (trap_signals sigOk onFlag d).2 SIGTERM = d SIGTERM := by
  simp [trap_signals, trap_signals_go, register_signals, h0, h1,
    SIGCHLD, SIGINT, SIGTERM, Function.update_apply]

/-- C1: once a termination request is observed, the shutdown handler
performs no respawn at all (its trace contains no spawn record), and the
supervisor exits with status 0 only after the wait loop has reaped every
remaining child: the `exit 0` event is the last event of the trace, occurs
nowhere earlier, and is preceded by a wait-reap of every pending child. -/
theorem shutdown_reaps_all_before_exit (sigOk : Nat → Bool)
    (d : Nat → Disposition) (jobs : Nat) (ch : Nat → Int)
    (pending : List Int) :
    (∀ id pid,
      Event.spawned id pid ∉ (terminate_children sigOk d jobs ch pending).trace) ∧
    (∃ pre, (terminate_children sigOk d jobs ch pending).trace =
        pre ++ [Event.exited 0] ∧
      (∀ c, Event.exited c ∉ pre) ∧
      (∀ p, p ∈ pending → Event.waitReaped p ∈ pre)) ∧
    (terminate_children sigOk d jobs ch pending).exitCode = 0 := by
  refine ⟨?_, ⟨Event.logged "Termination signal received! Killing children" ::
      ((List.range jobs).map (fun i => Event.killed (ch i)) ++ wait_all pending),
      ?_, ?_, ?_⟩, rfl⟩
  · intro id pid
    simp [terminate_children, wait_all_eq_map]
  · simp [terminate_children]
  · intro c
    simp [wait_all_eq_map]
  · intro p hp
    simp only [wait_all_eq_map, List.mem_cons, List.mem_append, List.mem_map]
    exact Or.inr (Or.inr ⟨p, hp, rfl⟩)

/-- C2: one pass of the SIGCHLD handler polls every slot in `0..jobs-1`
non-blockingly exactly once; a slot whose poll reports "alive" (waitpid
returned 0) is skipped (pid unchanged, nothing spawned for it); every slot
whose poll reports an exited child is respawned in this same pass (its
relaunch fork result is recorded and exactly one spawn for it is traced) —
so K ≥ 2 coalesced deaths are all handled by the single invocation. -/
theorem restart_polls_once_and_respawns_exited (wp f : Nat → Int)
    (jobs : Nat) (ch : Nat → Int) :
    (∀ i, i < jobs → countPolled (restart_children wp f jobs ch).2 i = 1) ∧
    (∀ i, i < jobs → wp i = 0 →
      (restart_children wp f jobs ch).1 i = ch i ∧
      countSpawned (restart_children wp f jobs ch).2 i = 0) ∧
    (∀ i, i < jobs → 0 < wp i → 0 < f i →
      (restart_children wp f jobs ch).1 i = f i ∧
      countSpawned (restart_children wp f jobs ch).2 i = 1) := by
  refine ⟨?_, ?_, ?_⟩
  · intro i hi
    rw [restart_children, restart_go_countPolled]
    exact List.count_eq_one_of_mem (List.nodup_range jobs) (List.mem_range.mpr hi)
  · intro i hi hw
    refine ⟨?_, ?_⟩
    · rw [restart_children, restart_go_fst]
      simp [hw]
    · rw [restart_children, restart_go_countSpawned]
      simp [hw]
  · intro i hi hw hf
    refine ⟨?_, ?_⟩
    · rw [restart_children, restart_go_fst]
      simp [List.mem_range.mpr hi, hw, hf]
    · rw [restart_children, restart_go_countSpawned, if_pos ⟨hw, hf⟩]
      exact List.count_eq_one_of_mem (List.nodup_range jobs) (List.mem_range.mpr hi)

/-- C3: master spawns slots `0..jobs-1` sequentially (with all forks
succeeding, the trace is exactly the in-order list of spawn records);
if any spawn fails it returns exit status 1 with the signal dispositions
untouched (installation is never reached); if the spawns succeed but the
signal installation fails it returns exit status 1; and it reaches the
idle Running state only when every spawn and all three `sigaction` calls
succeeded. -/
theorem master_startup_failure_aborts (f : Nat → Int) (sigOk : Nat → Bool)
    (jobs : Nat) (ch0 : Nat → Int) (d : Nat → Disposition) :
    ((∀ i, i < jobs → 0 < f i) →
      (master_go f (List.range jobs) ch0).2.2 =
        (List.range jobs).map (fun i => Event.spawned i (f i))) ∧
    ((∃ i, i < jobs ∧ f i < 0) →
      (master f sigOk jobs ch0 d).exitCode = some 1 ∧
      (master f sigOk jobs ch0 d).disp = d) ∧
    ((∀ i, i < jobs → 0 ≤ f i) →
      ¬ (sigOk 0 = true ∧ sigOk 1 = true ∧ sigOk 2 = true) →
      (master f sigOk jobs ch0 d).exitCode = some 1) ∧
    ((master f sigOk jobs ch0 d).exitCode = none →
      (∀ i, i < jobs → 0 ≤ f i) ∧
      sigOk 0 = true ∧ sigOk 1 = true ∧ sigOk 2 = true) := by
  refine ⟨?_, ?_, ?_, ?_⟩
  · intro h
    exact master_go_trace f (List.range jobs) ch0
      (fun i hi => h i (List.mem_range.mp hi))
  · rintro ⟨i, hi, hfi⟩
    have hs : (master_go f (List.range jobs) ch0).1 = false := by
      rw [Bool.eq_false_iff]
      intro hc
      have := (master_go_fst f (List.range jobs) ch0).mp hc i (List.mem_range.mpr hi)
      omega
    constructor <;> simp [master, hs]
  · intro hall hsig
    have hs : (master_go f (List.range jobs) ch0).1 = true :=
      (master_go_fst f (List.range jobs) ch0).mpr
        (fun i hi => hall i (List.mem_range.mp hi))
    have ht : (trap_signals sigOk true d).1 = false := by
      rw [Bool.eq_false_iff]
      intro hc
      exact hsig ((trap_signals_fst_iff sigOk true d).mp hc)
    simp [master, hs, ht]
  · intro hnone
    by_cases hs : (master_go f (List.range jobs) ch0).1 = true
    · by_cases ht : (trap_signals sigOk true d).1 = true
      · exact ⟨fun i hi =>
          (master_go_fst f (List.range jobs) ch0).mp hs i (List.mem_range.mpr hi),
          (trap_signals_fst_iff sigOk true d).mp ht⟩
      · rw [Bool.not_eq_true] at ht
        simp [master, hs, ht] at hnone
    · rw [Bool.not_eq_true] at hs
      simp [master, hs] at hnone

/-- C4 (amended): each of Install (`trap_signals true`) and Restore
(`trap_signals false`) returns failure exactly when some `sigaction` call
is rejected, and on success every bound signal's disposition is switched;
but a failure does not roll back: when the first call succeeds and the
second fails, the operation reports failure with SIGCHLD already switched
and SIGINT/SIGTERM untouched — a partial installation results. -/
theorem trap_signals_unit_no_rollback (sigOk : Nat → Bool) (onFlag : Bool)
    (d : Nat → Disposition) :
    ((trap_signals sigOk onFlag d).1 = true ↔
      sigOk 0 = true ∧ sigOk 1 = true ∧ sigOk 2 = true) ∧
    ((trap_signals sigOk onFlag d).1 = true →
      (trap_signals sigOk onFlag d).2 SIGCHLD =
        (if onFlag then Disposition.handler HandlerId.restartChildrenH
          else Disposition.dfl) ∧
      (trap_signals sigOk onFlag d).2 SIGINT =
        (if onFlag then Disposition.handler HandlerId.terminateChildrenH
          else Disposition.dfl) ∧
      (trap_signals sigOk onFlag d).2 SIGTERM =
        (if onFlag then Disposition.handler HandlerId.terminateChildrenH
          else Disposition.dfl)) ∧
    (sigOk 0 = true → sigOk 1 = false →
      (trap_signals sigOk onFlag d).1 = false ∧
      (trap_signals sigOk onFlag d).2 SIGCHLD =
        (if onFlag then Disposition.handler HandlerId.restartChildrenH
          else Disposition.dfl) ∧
      (trap_signals sigOk onFlag d).2 SIGINT = d SIGINT ∧
      (trap_signals sigOk onFlag d).2 SIGTERM = d SIGTERM) :=
  ⟨trap_signals_fst_iff sigOk onFlag d,
   fun h => trap_signals_disp_of_ok sigOk onFlag d h,
   fun h0 h1 => trap_signals_partial sigOk onFlag d h0 h1⟩

/-- C4 counterexample: with the first `sigaction` call succeeding and the
second rejected, Install returns failure yet SIGCHLD's disposition has
been switched to the restart handler while SIGINT's has not — the claimed
"either every bound signal's disposition is switched or none is" is false. -/
theorem trap_signals_partial_install_cx :
    (trap_signals (fun k => k == 0) true (fun _ => Disposition.dfl)).1 = false ∧
    (trap_signals (fun k => k == 0) true (fun _ => Disposition.dfl)).2 SIGCHLD =
      Disposition.handler HandlerId.restartChildrenH ∧
    (trap_signals (fun k => k == 0) true (fun _ => Disposition.dfl)).2 SIGINT =
      Disposition.dfl := by
  refine ⟨?_, ?_, ?_⟩ <;> rfl

/-- C5 (amended): `optparse` applies no bound check to the `-j` argument:
for every count n — in particular 256, which exceeds the fixed table
capacity of 255 — the configuration is accepted unchanged, with no
rejection and no truncation. -/
theorem optparse_no_jobs_bound_check (n : Int) :
    optparse [Arg.j n] =
      Except.ok { jobs := n, daemonize := false, logfile := "/dev/null" } ∧
    childrenCapacity = 255 :=
  ⟨rfl, rfl⟩

/-- C5 counterexample: `jobs = 256` is not rejected: `optparse` returns
the configuration with jobs = 256 even though the fixed slot table
`children[0xff]` holds only 255 entries. -/
theorem optparse_accepts_jobs_256_cx :
    optparse [Arg.j 256] =
      Except.ok { jobs := 256, daemonize := false, logfile := "/dev/null" } ∧
    childrenCapacity = 255 :=
  ⟨rfl, rfl⟩

/-- C6 (amended): when the relaunch of a dead slot fails during the
SIGCHLD handler, the slot keeps its previous (now stale) pid and no spawn
is recorded for it in the pass; the failure produces no output at all —
`child`'s false return is discarded and nothing is printed — rather than
the logged-and-retried outcome the claim describes. -/
theorem respawn_failure_unlogged_slot_stale (wp f : Nat → Int) (jobs : Nat)
    (ch : Nat → Int) (i : Nat) (hi : i < jobs) (hw : 0 < wp i)
    (hf : f i < 0) :
    (restart_children wp f jobs ch).1 i = ch i ∧
    countSpawned (restart_children wp f jobs ch).2 i = 0 := by
  constructor
  · rw [restart_children, restart_go_fst]
    have : ¬ 0 < f i := by omega
    simp [this]
  · rw [restart_children, restart_go_countSpawned]
    have : ¬ 0 < f i := by omega
    simp [this]

/-- C6 witness: a concrete pass (one slot, poll reports pid 7 exited, the
relaunch fork fails) in which the slot keeps its stale pid 42 and no spawn
is recorded. -/
theorem respawn_failure_unlogged_witness :
    (restart_children (fun _ => 7) (fun _ => -1) 1 (fun _ => 42)).1 0 = 42 ∧
    countSpawned (restart_children (fun _ => 7) (fun _ => -1) 1 (fun _ => 42)).2 0 = 0 :=
  respawn_failure_unlogged_slot_stale (fun _ => 7) (fun _ => -1) 1 (fun _ => 42) 0
    (by decide) (by decide) (by decide)

/-- C6 counterexample: in that concrete pass the complete trace is just
the poll and the reap notice — the spawn failure is silently dropped (no
failure message of any kind is emitted) and the slot still holds the stale
pid, refuting "that failure is logged (not silently dropped)". -/
theorem respawn_failure_silent_cx :
    (restart_children (fun _ => 7) (fun _ => -1) 1 (fun _ => 42)).2 =
      [Event.polled 0, Event.reaped 0 7] ∧
    (restart_children (fun _ => 7) (fun _ => -1) 1 (fun _ => 42)).1 0 = 42 := by
  refine ⟨?_, ?_⟩ <;> rfl

/-- C7 (amended): the termination broadcast of step 2 is performed
unconditionally after step 1 is merely attempted: `terminate_children`
discards the result of `trap_signals(false)`, so its trace — including a
SIGTERM kill for every slot — is identical whatever the `sigaction`
outcomes, rather than step 2 being conditional on step 1's success. -/
theorem terminate_broadcast_unconditional (sigOk sigOk2 : Nat → Bool)
    (d : Nat → Disposition) (jobs : Nat) (ch : Nat → Int)
    (pending : List Int) :
    (terminate_children sigOk d jobs ch pending).trace =
      (terminate_children sigOk2 d jobs ch pending).trace ∧
    (∀ i, i < jobs →
      Event.killed (ch i) ∈ (terminate_children sigOk d jobs ch pending).trace) := by
  refine ⟨rfl, ?_⟩
  intro i hi
  simp only [terminate_children, List.mem_cons, List.mem_append, List.mem_map]
  exact Or.inr (Or.inl ⟨i, List.mem_range.mpr hi, rfl⟩)

/-- C7 counterexample: with every `sigaction` call failing, step 1
(`trap_signals(false)`) reports failure, yet the kill of the only worker
(pid 100) is still performed — refuting "the broadcast is performed only
if the preceding Restore succeeded". -/
theorem terminate_kills_despite_restore_failure_cx :
    (trap_signals (fun _ => false) false (fun _ => Disposition.dfl)).1 = false ∧
    Event.killed 100 ∈
      (terminate_children (fun _ => false) (fun _ => Disposition.dfl) 1
        (fun _ => 100) [100]).trace := by
  refine ⟨rfl, ?_⟩
  simp [terminate_children, trap_signals, trap_signals_go, register_signals,
    wait_all]

/-- C8: `child(id)` in the parent: when `fork` fails (negative return) it
returns false with the pid table and the trace untouched; when `fork`
succeeds it returns true, records the new pid into slot id, and leaves
every other slot's entry unchanged. -/
theorem child_spawn_contract (forkRet : Int) (id : Nat) (ch : Nat → Int) :
    (forkRet < 0 →
      (child forkRet id ch).1 = false ∧
      (child forkRet id ch).2.1 = ch ∧
      (child forkRet id ch).2.2 = []) ∧
    (0 < forkRet →
      (child forkRet id ch).1 = true ∧
      (child forkRet id ch).2.1 id = forkRet ∧
      (∀ j, j ≠ id → (child forkRet id ch).2.1 j = ch j)) := by
  constructor
  · intro h
    simp [child, h]
  · intro h
    have h2 : ¬ forkRet < 0 := by omega
    refine ⟨by simp [child, h2, h], by simp [child, h2, h], ?_⟩
    intro j hj
    simp [child, h2, h, Function.update_apply, hj]

/-- C8 witness: a concrete failing fork (-1) leaves slot 3's entry at 10,
and a concrete successful fork (77) records 77 into slot 3 while slot 4
keeps its entry. -/
theorem child_spawn_contract_witness :
    ((child (-1) 3 (fun _ => 10)).1 = false ∧
      (child (-1) 3 (fun _ => 10)).2.1 = (fun _ => (10 : Int)) ∧
      (child (-1) 3 (fun _ => 10)).2.2 = []) ∧
    ((child 77 3 (fun _ => 10)).1 = true ∧
      (child 77 3 (fun _ => 10)).2.1 3 = 77 ∧
      (child 77 3 (fun _ => 10)).2.1 4 = 10) := by
  constructor
  · exact (child_spawn_contract (-1) 3 (fun _ => 10)).1 (by decide)
  · have h := (child_spawn_contract 77 3 (fun _ => 10)).2 (by decide)
    exact ⟨h.1, h.2.1, h.2.2 4 (by decide)⟩

/-- C9: a pass of the SIGCHLD handler rewrites `children[i]` only for
slots observed exited: a slot whose poll reports "alive" (0) or an error
(negative) keeps its recorded pid, slots outside `0..jobs-1` are
untouched, and any slot whose entry changed was polled within bounds with
a positive (exited) result. -/
theorem restart_frame_untouched_slots (wp f : Nat → Int) (jobs : Nat)
    (ch : Nat → Int) :
    (∀ i, i < jobs → wp i ≤ 0 → (restart_children wp f jobs ch).1 i = ch i) ∧
    (∀ i, jobs ≤ i → (restart_children wp f jobs ch).1 i = ch i) ∧
    (∀ i, (restart_children wp f jobs ch).1 i ≠ ch i → i < jobs ∧ 0 < wp i) := by
  refine ⟨?_, ?_, ?_⟩
  · intro i _ hw
    rw [restart_children, restart_go_fst]
    have : ¬ 0 < wp i := by omega
    simp [this]
  · intro i hi
    rw [restart_children, restart_go_fst]
    have : i ∉ List.range jobs := by
      simp [List.mem_range]
      omega
    simp [this]
  · intro i hne
    rw [restart_children, restart_go_fst] at hne
    by_cases hc : i ∈ List.range jobs ∧ 0 < wp i ∧ 0 < f i
    · exact ⟨List.mem_range.mp hc.1, hc.2.1⟩
    · rw [if_neg hc] at hne
      exact absurd rfl hne

/-- C9 witness: a concrete pass over three slots (slot 0 errors, slot 1
alive, slot 2 exited): slots 0 and 1 keep their pids, and the changed
slot 2 is indeed in bounds with a positive poll. -/
theorem restart_frame_untouched_witness :
    (restart_children (fun i => if i == 2 then 9 else if i == 0 then -1 else 0)
      (fun _ => 50) 3 (fun i => 20 + i)).1 1 = 21 ∧
    (restart_children (fun i => if i == 2 then 9 else if i == 0 then -1 else 0)
      (fun _ => 50) 3 (fun i => 20 + i)).1 5 = 25 := by
  constructor
  · exact (restart_frame_untouched_slots
      (fun i => if i == 2 then 9 else if i == 0 then -1 else 0)
      (fun _ => 50) 3 (fun i => 20 + i)).1 1 (by decide) (by decide)
  · exact (restart_frame_untouched_slots
      (fun i => if i == 2 then 9 else if i == 0 then -1 else 0)
      (fun _ => 50) 3 (fun i => 20 + i)).2.1 5 (by decide)

/-- C10: with no options the parsed configuration is the default
`jobs = 2`, `daemonize = false`, logfile "/dev/null", and each flag
overrides exactly its own field of the defaults. -/
theorem optparse_defaults_and_field_isolation :
    optparse [] =
      Except.ok { jobs := 2, daemonize := false, logfile := "/dev/null" } ∧
    (∀ n : Int, optparse [Arg.j n] = Except.ok { defaultOptions with jobs := n }) ∧
    optparse [Arg.d] = Except.ok { defaultOptions with daemonize := true } ∧
    (∀ s : String, optparse [Arg.f s] =
      Except.ok { defaultOptions with logfile := s.take 255 }) :=
  ⟨rfl, fun _ => rfl, rfl, fun _ => rfl⟩

end ForkingDaemon
